import Mathlib

/-!
A verification development for the frame-capture daemon in src/main.c of
rpi_fb_capture.  The C code is shallowly embedded: the session struct
capture_info becomes a Lean structure, byte buffers become lists of naturals
(each byte a natural below 256), pixel and dither-residual storage become
functions from flat indices to values, and every encoder or parser routine
becomes a pure Lean function whose output list is the exact byte sequence the
C routine writes through the shared work buffer.  Machine arithmetic is Nat
with explicit truncation (% 256 for uint8_t stores and parameters, % 65536
for uint16_t loads, % 2^32 for uint32_t) wherever the C type forces it.
-/

/-- Ghost trace entry recording one dispatch performed by the command-parser
switch in handle_stdin: which command fired and, for the commands that read an
argument byte (6 and 7), which argument value was read.  The C code has no
such trace; it is added so that theorems can speak about the sequence of
dispatched commands. -/
inductive DispatchedCmd : Type where
  | snapshot : ℕ → DispatchedCmd
  | threshold : ℕ → DispatchedCmd
  | dither : ℕ → DispatchedCmd
  | unknown : ℕ → DispatchedCmd
deriving DecidableEq

/-- Embedding of struct capture_info (declared in capture.h, populated and
mutated in main.c).  Pixel storage buffer and the dither residual buffer are
total functions from flat indices; request_buffer together with its implicit
length stands for the request_buffer array plus request_buffer_ix.  The two
Bool fields are ghost markers for control flow the C code expresses by
err(EXIT_FAILURE, ...) (fatal) and by an infinite loop that re-parses the same
bytes forever (diverged, reachable only when the uint8_t frame length wraps to
zero). -/
structure CaptureInfo : Type where
  capture_width : ℕ
  capture_height : ℕ
  capture_stride : ℕ
  buffer : ℕ → ℕ
  dithering_buffer : ℕ → ℤ
  backend_name : ℕ → ℕ
  display_id : ℕ
  display_width : ℕ
  display_height : ℕ
  mono_threshold_r5 : ℕ
  mono_threshold_g6 : ℕ
  mono_threshold_b5 : ℕ
  dithering : ℕ
  send_snapshot : ℕ
  request_buffer : List ℕ
  log : List DispatchedCmd
  fatal : Bool
  diverged : Bool

/-- Modelled from the spec: DITHERING_NONE is declared in dithering.h, which
is not part of the core source; the spec (section 4.1) says a zero dithering
argument disables dithering, so the constant is zero. -/
def DITHERING_NONE : ℕ := 0

/-- set_mono_threshold from main.c.  The C parameter is uint8_t, hence the
% 256 on entry. -/
def set_mono_threshold (info : CaptureInfo) (threshold : ℕ) : CaptureInfo :=
  let t := threshold % 256
  { info with
    mono_threshold_r5 := t >>> 3
    mono_threshold_g6 := (t >>> 2) <<< 5
    mono_threshold_b5 := (t >>> 3) <<< 11 }

/-- set_dithering from main.c (uint8_t parameter). -/
def set_dithering (info : CaptureInfo) (value : ℕ) : CaptureInfo :=
  { info with dithering := value % 256 }

/-- A uint16_t load from the frame buffer at flat pixel index i. -/
def read_pixel (info : CaptureInfo) (i : ℕ) : ℕ :=
  info.buffer i % 65536

/-- to_1bpp from main.c. -/
def to_1bpp (info : CaptureInfo) (rgb565 : ℕ) : ℕ :=
  if rgb565 &&& 0x001f > info.mono_threshold_r5 ∨
     rgb565 &&& 0x07e0 > info.mono_threshold_g6 ∨
     rgb565 &&& 0xf800 > info.mono_threshold_b5 then 1 else 0

/-- One output byte of a monochrome encoder: the eight or-ed decision bits,
decision i occupying bit i, exactly as both encoder loops build *out. -/
def mono8 (d : ℕ → ℕ) : ℕ :=
  d 0 ||| (d 1 <<< 1) ||| (d 2 <<< 2) ||| (d 3 <<< 3) |||
  (d 4 <<< 4) ||| (d 5 <<< 5) ||| (d 6 <<< 6) ||| (d 7 <<< 7)

/-- Byte output of a counted C for-loop: iteration bodies g i, g (i+1), ...,
n iterations in all, concatenated in order. -/
def rowsFrom (g : ℕ → List ℕ) : ℕ → ℕ → List ℕ
  | _, 0 => []
  | i, n + 1 => g i ++ rowsFrom g (i + 1) n

/-- Byte output of a counted C for-loop starting at index 0. -/
def rows (n : ℕ) (g : ℕ → List ℕ) : List ℕ :=
  rowsFrom g 0 n

/-- add_packet_length from main.c: the 4-byte big-endian length prefix of a
uint32_t size. -/
def add_packet_length (size : ℕ) : List ℕ :=
  let s := size % 4294967296
  [s >>> 24, (s >>> 16) &&& 0xff, (s >>> 8) &&& 0xff, s &&& 0xff]

/-- The 4 bytes a memcpy of a uint32_t field produces on the (little-endian)
target. -/
def le32 (v : ℕ) : List ℕ :=
  [v % 256, (v >>> 8) % 256, (v >>> 16) % 256, (v >>> 24) % 256]

/-- Iteration count of a C loop for (x = 0; x < n; x += 8). -/
def groups8 (n : ℕ) : ℕ :=
  (n + 7) / 8

/-- emit_rgb24 from main.c: 4-byte length prefix for 3*width*height, then per
pixel, row-major with the image pointer advanced by capture_stride per row,
the three uint8_t stores (pixel >> 11) << 3, ((pixel >> 5) & 0x3f) << 2 and
(pixel & 0x1f) << 3 (all below 256, so no store truncation occurs). -/
def emit_rgb24 (info : CaptureInfo) : List ℕ :=
  let width := info.capture_width
  let height := info.capture_height
  add_packet_length (3 * width * height) ++
    rows height (fun y =>
      rows width (fun x =>
        let pixel := read_pixel info (y * info.capture_stride + x)
        [(pixel >>> 11) <<< 3, ((pixel >>> 5) &&& 0x3f) <<< 2, (pixel &&& 0x1f) <<< 3]))

/-- emit_rgb565 from main.c: length prefix for 2*width*height, then a
per-row memcpy of width uint16_t pixels, i.e. the two little-endian bytes of
each pixel, stride padding skipped. -/
def emit_rgb565 (info : CaptureInfo) : List ℕ :=
  let width := info.capture_width
  let height := info.capture_height
  add_packet_length (2 * width * height) ++
    rows height (fun y =>
      rows width (fun x =>
        let pixel := read_pixel info (y * info.capture_stride + x)
        [pixel % 256, pixel >>> 8]))

/-- Payload bytes of emit_mono from main.c.  The image pointer advances 8
pixels per inner iteration and row_skip = capture_stride - capture_width more
after each row, so after y rows and g groups it sits at flat index
y * (8 * groups8 width + row_skip) + 8 * g; with width divisible by 8 this is
y * stride + 8 * g.  In the dithered branch the residual-buffer pointer
advances 8 per group and receives no row_skip; dithering_apply (defined in
dithering.c, outside the core) has already populated dithering_buffer, which
the model keeps as a field.  Its subtraction is Nat truncated subtraction,
matching the unsigned size_t row_skip only when stride is at least width, the
invariant the capture backend guarantees. -/
def emit_mono_payload (info : CaptureInfo) : List ℕ :=
  let width := info.capture_width
  let height := info.capture_height
  let row_skip := info.capture_stride - width
  if info.dithering = DITHERING_NONE then
    rows height (fun y =>
      rows (groups8 width) (fun g =>
        [mono8 (fun i =>
          to_1bpp info (read_pixel info (y * (8 * groups8 width + row_skip) + 8 * g + i)))]))
  else
    rows height (fun y =>
      rows (groups8 width) (fun g =>
        [mono8 (fun i =>
          if info.dithering_buffer (y * (8 * groups8 width) + 8 * g + i) ≠ 0 then 1 else 0)]))

/-- emit_mono from main.c: length prefix computed as width * height / 8, then
the payload. -/
def emit_mono (info : CaptureInfo) : List ℕ :=
  add_packet_length (info.capture_width * info.capture_height / 8) ++
    emit_mono_payload info

/-- Payload bytes of emit_mono_rotate_flip from main.c: outer loop over
columns (the image pointer advancing one pixel per column), inner loop over
groups of 8 rows, each byte packing the decisions of column[k * stride],
k = 0..7, with the column pointer advancing 8 * stride per group.  In the
dithered branch the residual buffer is indexed the same way with width in
place of stride; the C code reads it through a uint16_t pointer, a
reinterpretation of the int16_t residuals that preserves exactly the
nonzero-or-zero status the branch tests. -/
def emit_mono_rotate_flip_payload (info : CaptureInfo) : List ℕ :=
  let width := info.capture_width
  let height := info.capture_height
  let stride := info.capture_stride
  if info.dithering = DITHERING_NONE then
    rows width (fun x =>
      rows (groups8 height) (fun gy =>
        [mono8 (fun k =>
          to_1bpp info (read_pixel info (x + (8 * gy + k) * stride)))]))
  else
    rows width (fun x =>
      rows (groups8 height) (fun gy =>
        [mono8 (fun k =>
          if info.dithering_buffer (x + (8 * gy + k) * width) ≠ 0 then 1 else 0)]))

/-- emit_mono_rotate_flip from main.c: length prefix computed as
width * height / 8, then the payload. -/
def emit_mono_rotate_flip (info : CaptureInfo) : List ℕ :=
  add_packet_length (info.capture_width * info.capture_height / 8) ++
    emit_mono_rotate_flip_payload info

/-- The 16 bytes memcpy'd from the backend_name field of capture_info. -/
def backend_name_bytes (info : CaptureInfo) : List ℕ :=
  (List.range 16).map (fun i => info.backend_name i % 256)

/-- emit_capture_info from main.c: length prefix for 36, the 16-byte
backend-name field, then the five uint32_t fields display_id, display_width,
display_height, capture_width, capture_height, each memcpy'd as 4 bytes. -/
def emit_capture_info (info : CaptureInfo) : List ℕ :=
  add_packet_length 36 ++
    backend_name_bytes info ++
    le32 info.display_id ++
    le32 info.display_width ++
    le32 info.display_height ++
    le32 info.capture_width ++
    le32 info.capture_height

/-- The switch statement of handle_stdin on request_buffer[4], with
request_buffer[5] as the argument byte.  Cases 1-5 fall through to the same
store into send_snapshot; case 6 calls set_mono_threshold, case 7 calls
set_dithering, anything else is ignored.  Each arm also appends its ghost
trace entry; the default arm reads no argument byte, exactly as in C. -/
def dispatch (info : CaptureInfo) (cmd arg : ℕ) : CaptureInfo :=
  if 1 ≤ cmd ∧ cmd ≤ 5 then
    { info with send_snapshot := cmd, log := info.log ++ [DispatchedCmd.snapshot cmd] }
  else if cmd = 6 then
    { set_mono_threshold info arg with log := info.log ++ [DispatchedCmd.threshold arg] }
  else if cmd = 7 then
    { set_dithering info arg with log := info.log ++ [DispatchedCmd.dither arg] }
  else
    { info with log := info.log ++ [DispatchedCmd.unknown cmd] }

/-- The uint8_t frame length computed by handle_stdin:
len = 4 + request_buffer[3], truncated to 8 bits by the uint8_t declaration
(so a declared length byte of 252 wraps len to 0). -/
def frame_len (b : List ℕ) : ℕ :=
  (4 + b.getD 3 0) % 256

/-- The while loop of handle_stdin: as long as at least 5 bytes are buffered,
check the three reserved bytes (nonzero is the fatal protocol violation),
compute len, stop if the frame is not fully buffered, otherwise dispatch on
byte 4 with byte 5 as argument and shift the buffer left by len.  A wrapped
len of 0 would make the C loop re-dispatch the same bytes forever; the model
marks that state diverged and stops. -/
def handle_buffer (info : CaptureInfo) : CaptureInfo :=
  if info.fatal = true ∨ info.diverged = true then info
  else if _h5 : 5 ≤ info.request_buffer.length then
    if info.request_buffer.getD 0 0 ≠ 0 ∨ info.request_buffer.getD 1 0 ≠ 0 ∨
       info.request_buffer.getD 2 0 ≠ 0 then
      { info with fatal := true }
    else if _hfit : info.request_buffer.length < frame_len info.request_buffer then info
    else if _hzero : frame_len info.request_buffer = 0 then { info with diverged := true }
    else
      handle_buffer
        { dispatch info (info.request_buffer.getD 4 0) (info.request_buffer.getD 5 0) with
          request_buffer := info.request_buffer.drop (frame_len info.request_buffer) }
  else info
termination_by info.request_buffer.length
decreasing_by
  simp only [List.length_drop]
  omega

/-- handle_stdin from main.c, given the bytes the read call returned: append
them to the inbound buffer and run the extraction loop.  (The bound the C read
imposes, at most MAX_REQUEST_BUFFER_SIZE - ix - 1 bytes per call, only splits
the incoming stream into more calls; the zero-length-read exit path is not
modelled.) -/
def handle_stdin (info : CaptureInfo) (data : List ℕ) : CaptureInfo :=
  handle_buffer { info with request_buffer := info.request_buffer ++ data }

/-- A wire command frame: 00 00 00 L cmd args with L = args.length + 1. -/
structure CmdFrame : Type where
  cmd : ℕ
  args : List ℕ
deriving DecidableEq

/-- The bytes of a command frame on the wire. -/
def frame_bytes (f : CmdFrame) : List ℕ :=
  0 :: 0 :: 0 :: (f.args.length + 1) :: f.cmd :: f.args

/-- The bytes of a sequence of command frames. -/
def frames_bytes (fs : List CmdFrame) : List ℕ :=
  fs.foldr (fun f acc => frame_bytes f ++ acc) []

/-- A well-formed frame: its declared length byte small enough that the
uint8_t len = 4 + L computation cannot wrap, and the commands that read an
argument byte (6 and 7) actually carry one inside the frame.  The spec frames
(codes 1-5 with L = 1, codes 6-7 with L = 2) all satisfy this. -/
def WFFrame (f : CmdFrame) : Prop :=
  f.args.length + 1 ≤ 251 ∧ ((f.cmd = 6 ∨ f.cmd = 7) → 1 ≤ f.args.length)

instance : DecidablePred WFFrame := fun f => by
  unfold WFFrame
  exact inferInstance

/-- The state change one complete well-formed frame causes when the parser
consumes it. -/
def apply_frame (info : CaptureInfo) (f : CmdFrame) : CaptureInfo :=
  dispatch info f.cmd (f.args.getD 0 0)

/-- A buffer on which the extraction loop cannot make progress: fewer than 5
bytes, or a zero header whose declared frame is not fully buffered. -/
def stalled (b : List ℕ) : Prop :=
  b.length < 5 ∨
    (b.getD 0 0 = 0 ∧ b.getD 1 0 = 0 ∧ b.getD 2 0 = 0 ∧ b.length < frame_len b)

/-- Concatenation of a list of delivered chunks. -/
def chunks_flatten (cs : List (List ℕ)) : List ℕ :=
  cs.foldr (fun c acc => c ++ acc) []

/-! ## Helper lemmas about the embedded definitions -/

lemma to_1bpp_le_one (info : CaptureInfo) (p : ℕ) : to_1bpp info p ≤ 1 := by
  unfold to_1bpp
  split <;> omega

lemma to_1bpp_eq_one_iff (info : CaptureInfo) (p : ℕ) :
    to_1bpp info p = 1 ↔
      p &&& 0x001f > info.mono_threshold_r5 ∨
      p &&& 0x07e0 > info.mono_threshold_g6 ∨
      p &&& 0xf800 > info.mono_threshold_b5 := by
  unfold to_1bpp
  split_ifs with h
  · simp [h]
  · simp [h]

lemma to_1bpp_eq_zero_iff (info : CaptureInfo) (p : ℕ) :
    to_1bpp info p = 0 ↔
      p &&& 0x001f ≤ info.mono_threshold_r5 ∧
      p &&& 0x07e0 ≤ info.mono_threshold_g6 ∧
      p &&& 0xf800 ≤ info.mono_threshold_b5 := by
  unfold to_1bpp
  split_ifs with h
  · constructor
    · intro h1
      exact h1.elim
    · intro h1
      obtain ⟨h1a, h1b, h1c⟩ := h1
      rcases h with h | h | h <;> omega
  · push_neg at h
    simp [h.1, h.2.1, h.2.2]

lemma le_one_testBit (x : ℕ) (hx : x ≤ 1) (k : ℕ) :
    x.testBit k = decide (k = 0 ∧ x = 1) := by
  match k with
  | 0 =>
    interval_cases x <;> decide
  | k + 1 =>
    have h2 : 1 < 2 ^ (k + 1) := Nat.one_lt_two_pow (by omega)
    rw [Nat.testBit_lt_two_pow (by omega)]
    simp

lemma mono8_testBit (d : ℕ → ℕ) (hd : ∀ j, d j ≤ 1) (i : ℕ) (hi : i < 8) :
    (mono8 d).testBit i = decide (d i = 1) := by
  unfold mono8
  have h0 := hd 0
  have h1 := hd 1
  have h2 := hd 2
  have h3 := hd 3
  have h4 := hd 4
  have h5 := hd 5
  have h6 := hd 6
  have h7 := hd 7
  interval_cases i <;>
    simp [Nat.testBit_or, Nat.testBit_shiftLeft, le_one_testBit _ (hd _)] <;>
    omega

lemma rowsFrom_length (g : ℕ → List ℕ) (m : ℕ) (hg : ∀ i, (g i).length = m) :
    ∀ n i, (rowsFrom g i n).length = n * m := by
  intro n
  induction n with
  | zero =>
    intro i
    simp [rowsFrom]
  | succ k ih =>
    intro i
    simp only [rowsFrom, List.length_append, hg, ih]
    ring

lemma rows_length (n : ℕ) (g : ℕ → List ℕ) (m : ℕ) (hg : ∀ i, (g i).length = m) :
    (rows n g).length = n * m :=
  rowsFrom_length g m hg n 0

lemma rowsFrom_getD (g : ℕ → List ℕ) (m : ℕ) (hg : ∀ i, (g i).length = m) :
    ∀ a n i b, a < n → b < m →
      (rowsFrom g i n).getD (a * m + b) 0 = (g (i + a)).getD b 0 := by
  intro a
  induction a with
  | zero =>
    intro n i b hn hb
    obtain ⟨k, rfl⟩ : ∃ k, n = k + 1 := ⟨n - 1, by omega⟩
    simp only [rowsFrom, Nat.zero_mul, Nat.zero_add]
    rw [List.getD_append _ _ _ _ (by rw [hg]; exact hb)]
    simp
  | succ a ih =>
    intro n i b hn hb
    obtain ⟨k, rfl⟩ : ∃ k, n = k + 1 := ⟨n - 1, by omega⟩
    have hidx : i + (a + 1) = i + 1 + a := by omega
    have harith : (a + 1) * m + b = m + (a * m + b) := by ring
    simp only [rowsFrom, harith, hidx]
    rw [List.getD_append_right _ _ _ _ (by rw [hg]; exact Nat.le_add_right m _)]
    rw [hg, Nat.add_sub_cancel_left]
    exact ih k (i + 1) b (by omega) hb

lemma rows_getD (n : ℕ) (g : ℕ → List ℕ) (m a b : ℕ) (hg : ∀ i, (g i).length = m)
    (ha : a < n) (hb : b < m) :
    (rows n g).getD (a * m + b) 0 = (g a).getD b 0 := by
  have h := rowsFrom_getD g m hg a n 0 b ha hb
  simpa using h

lemma dispatch_request_buffer (info : CaptureInfo) (cmd arg : ℕ) :
    (dispatch info cmd arg).request_buffer = info.request_buffer := by
  unfold dispatch set_mono_threshold set_dithering
  split_ifs <;> rfl

lemma dispatch_fatal (info : CaptureInfo) (cmd arg : ℕ) :
    (dispatch info cmd arg).fatal = info.fatal := by
  unfold dispatch set_mono_threshold set_dithering
  split_ifs <;> rfl

lemma dispatch_diverged (info : CaptureInfo) (cmd arg : ℕ) :
    (dispatch info cmd arg).diverged = info.diverged := by
  unfold dispatch set_mono_threshold set_dithering
  split_ifs <;> rfl

lemma dispatch_arg_congr (info : CaptureInfo) (cmd a b : ℕ)
    (h6 : cmd ≠ 6) (h7 : cmd ≠ 7) :
    dispatch info cmd a = dispatch info cmd b := by
  unfold dispatch
  split_ifs <;> rfl

lemma dispatch_req_update (info : CaptureInfo) (l : List ℕ) (cmd arg : ℕ) :
    dispatch { info with request_buffer := l } cmd arg
      = { dispatch info cmd arg with request_buffer := l } := by
  unfold dispatch set_mono_threshold set_dithering
  split_ifs <;> rfl

lemma handle_buffer_stalled (info : CaptureInfo) (hf : info.fatal = false)
    (hd : info.diverged = false) (hs : stalled info.request_buffer) :
    handle_buffer info = info := by
  rw [handle_buffer]
  rcases hs with h | ⟨h0, h1, h2, h3⟩
  · rw [if_neg (by simp [hf, hd]), dif_neg (by omega)]
  · by_cases h5 : 5 ≤ info.request_buffer.length
    · rw [if_neg (by simp [hf, hd]), dif_pos h5,
        if_neg (by push_neg; exact ⟨h0, h1, h2⟩),
        dif_pos h3]
    · rw [if_neg (by simp [hf, hd]), dif_neg h5]

lemma handle_buffer_cons_step (info : CaptureInfo) (L c : ℕ) (tail : List ℕ)
    (hf : info.fatal = false) (hd : info.diverged = false)
    (hL : 4 + L ≤ 255) (hfit : L ≤ tail.length + 1) :
    handle_buffer { info with request_buffer := 0 :: 0 :: 0 :: L :: c :: tail }
      = handle_buffer
          { dispatch info c (tail.getD 0 0) with
            request_buffer := (c :: tail).drop L } := by
  have efl : frame_len (0 :: 0 :: 0 :: L :: c :: tail) = 4 + L := by
    show (4 + L) % 256 = 4 + L
    omega
  have elen : (0 :: 0 :: 0 :: L :: c :: tail : List ℕ).length = tail.length + 5 := by
    simp
  have edrop : (0 :: 0 :: 0 :: L :: c :: tail : List ℕ).drop (4 + L)
      = (c :: tail).drop L := by
    rw [show (4 + L : ℕ) = L + 1 + 1 + 1 + 1 from by ring]
    simp only [List.drop_succ_cons]
  rw [handle_buffer]
  rw [if_neg (by simp [hf, hd]), dif_pos (by rw [elen]; omega),
    if_neg (by simp), dif_neg (by rw [efl, elen]; omega),
    dif_neg (by rw [efl]; omega)]
  rw [efl, edrop, dispatch_req_update]
  rfl

/-- A concrete capture session used to instantiate theorems with hypotheses:
an 8 x 8 capture with stride 10, default-style thresholds, dithering off,
empty inbound buffer. -/
def sampleInfo : CaptureInfo where
  capture_width := 8
  capture_height := 8
  capture_stride := 10
  buffer := fun i => (37 * i + 11) % 65536
  dithering_buffer := fun i => if i % 3 = 0 then 0 else 1
  backend_name := fun i => (i + 65) % 256
  display_id := 7
  display_width := 640
  display_height := 480
  mono_threshold_r5 := 3
  mono_threshold_g6 := 96
  mono_threshold_b5 := 6144
  dithering := 0
  send_snapshot := 0
  request_buffer := []
  log := []
  fatal := false
  diverged := false

/-! ## Claim theorems -/

/-- C3: to_1bpp returns 1 exactly when at least one of the pixel's three
masked components (masks 0x001f, 0x07e0, 0xf800, compared in their packed bit
positions) strictly exceeds its stored threshold component, and returns 0
exactly when all three are less than or equal to their thresholds. -/
theorem C3_to_1bpp_rule (info : CaptureInfo) (pix : ℕ) :
    (to_1bpp info pix = 1 ↔
      pix &&& 0x001f > info.mono_threshold_r5 ∨
      pix &&& 0x07e0 > info.mono_threshold_g6 ∨
      pix &&& 0xf800 > info.mono_threshold_b5) ∧
    (to_1bpp info pix = 0 ↔
      pix &&& 0x001f ≤ info.mono_threshold_r5 ∧
      pix &&& 0x07e0 ≤ info.mono_threshold_g6 ∧
      pix &&& 0xf800 ≤ info.mono_threshold_b5) :=
  ⟨to_1bpp_eq_one_iff info pix, to_1bpp_eq_zero_iff info pix⟩

/-- C5: for a fixed pixel, raising the 8-bit threshold input can never turn
an off decision (of the non-dithered path to_1bpp after set_mono_threshold)
into on: if the decision is off at threshold t1 and t1 <= t2 < 256, it is
still off at t2. -/
theorem C5_threshold_monotonicity (info : CaptureInfo) (pix t1 t2 : ℕ)
    (h12 : t1 ≤ t2) (h2 : t2 < 256)
    (hoff : to_1bpp (set_mono_threshold info t1) pix = 0) :
    to_1bpp (set_mono_threshold info t2) pix = 0 := by
  rw [to_1bpp_eq_zero_iff] at hoff ⊢
  simp only [set_mono_threshold] at hoff ⊢
  have e1 : t1 % 256 = t1 := Nat.mod_eq_of_lt (by omega)
  have e2 : t2 % 256 = t2 := Nat.mod_eq_of_lt h2
  rw [e1] at hoff
  rw [e2]
  have m1 : t1 >>> 3 ≤ t2 >>> 3 := by
    simp only [Nat.shiftRight_eq_div_pow]
    exact Nat.div_le_div_right h12
  have m2 : (t1 >>> 2) <<< 5 ≤ (t2 >>> 2) <<< 5 := by
    simp only [Nat.shiftRight_eq_div_pow, Nat.shiftLeft_eq]
    exact Nat.mul_le_mul_right _ (Nat.div_le_div_right h12)
  have m3 : (t1 >>> 3) <<< 11 ≤ (t2 >>> 3) <<< 11 := by
    simp only [Nat.shiftRight_eq_div_pow, Nat.shiftLeft_eq]
    exact Nat.mul_le_mul_right _ (Nat.div_le_div_right h12)
  obtain ⟨a1, a2, a3⟩ := hoff
  exact ⟨le_trans a1 m1, le_trans a2 m2, le_trans a3 m3⟩

theorem C5_threshold_monotonicity_witness :
    to_1bpp (set_mono_threshold sampleInfo 200) 33 = 0 :=
  C5_threshold_monotonicity sampleInfo 33 10 200 (by decide) (by decide) (by decide)

/-- C4: a code-6 command frame 00 00 00 02 06 t stores t >> 3,
(t >> 2) << 5 and (t >> 3) << 11 as the three threshold components, and the
threshold input 255 saturates them to 31, 2016 (0x7e0) and 63488 (0xf800),
after which no pixel component can strictly exceed its threshold, so to_1bpp
returns 0 for every pixel. -/
theorem C4_threshold_command (info : CaptureInfo) (t pix : ℕ)
    (hf : info.fatal = false) (hd : info.diverged = false) (ht : t < 256) :
    ((handle_buffer { info with request_buffer := [0, 0, 0, 2, 6, t] }).mono_threshold_r5
        = t >>> 3 ∧
     (handle_buffer { info with request_buffer := [0, 0, 0, 2, 6, t] }).mono_threshold_g6
        = (t >>> 2) <<< 5 ∧
     (handle_buffer { info with request_buffer := [0, 0, 0, 2, 6, t] }).mono_threshold_b5
        = (t >>> 3) <<< 11 ∧
     (handle_buffer { info with request_buffer := [0, 0, 0, 2, 6, t] }).request_buffer
        = []) ∧
    (set_mono_threshold info 255).mono_threshold_r5 = 31 ∧
    (set_mono_threshold info 255).mono_threshold_g6 = 2016 ∧
    (set_mono_threshold info 255).mono_threshold_b5 = 63488 ∧
    to_1bpp (set_mono_threshold info 255) pix = 0 := by
  have hstep := handle_buffer_cons_step info 2 6 [t] hf hd (by omega) (by simp)
  have hstall : handle_buffer
      { dispatch info 6 ([t].getD 0 0) with request_buffer := (6 :: [t]).drop 2 }
      = { dispatch info 6 ([t].getD 0 0) with request_buffer := (6 :: [t]).drop 2 } := by
    apply handle_buffer_stalled
    · simp [dispatch_fatal, hf]
    · simp [dispatch_diverged, hd]
    · left
      simp
  rw [hstall] at hstep
  have hmod : t % 256 = t := Nat.mod_eq_of_lt ht
  refine ⟨⟨?_, ?_, ?_, ?_⟩, rfl, rfl, rfl, ?_⟩
  · rw [hstep]
    simp [dispatch, set_mono_threshold, hmod]
  · rw [hstep]
    simp [dispatch, set_mono_threshold, hmod]
  · rw [hstep]
    simp [dispatch, set_mono_threshold, hmod]
  · rw [hstep]
    rfl
  · rw [to_1bpp_eq_zero_iff]
    refine ⟨?_, ?_, ?_⟩
    · rw [show (set_mono_threshold info 255).mono_threshold_r5 = 31 from rfl]
      exact Nat.and_le_right
    · rw [show (set_mono_threshold info 255).mono_threshold_g6 = 2016 from rfl]
      exact Nat.and_le_right
    · rw [show (set_mono_threshold info 255).mono_threshold_b5 = 63488 from rfl]
      exact Nat.and_le_right

theorem C4_threshold_command_witness :
    ((handle_buffer { sampleInfo with request_buffer := [0, 0, 0, 2, 6, 100] }).mono_threshold_r5
        = 100 >>> 3 ∧
     (handle_buffer { sampleInfo with request_buffer := [0, 0, 0, 2, 6, 100] }).mono_threshold_g6
        = (100 >>> 2) <<< 5 ∧
     (handle_buffer { sampleInfo with request_buffer := [0, 0, 0, 2, 6, 100] }).mono_threshold_b5
        = (100 >>> 3) <<< 11 ∧
     (handle_buffer { sampleInfo with request_buffer := [0, 0, 0, 2, 6, 100] }).request_buffer
        = []) ∧
    (set_mono_threshold sampleInfo 255).mono_threshold_r5 = 31 ∧
    (set_mono_threshold sampleInfo 255).mono_threshold_g6 = 2016 ∧
    (set_mono_threshold sampleInfo 255).mono_threshold_b5 = 63488 ∧
    to_1bpp (set_mono_threshold sampleInfo 255) 4660 = 0 :=
  C4_threshold_command sampleInfo 100 4660 rfl rfl (by decide)

/-- C9: the parser reads the command byte at inbound-buffer offset 4 and the
argument byte at offset 5 regardless of the declared length byte.  A frame
declaring L = 0 consumes only its 4 header bytes and dispatches on the first
byte of the following data, which is afterwards re-parsed from the start of
the buffer; a code-6 or code-7 frame declaring L = 1 consumes 5 bytes and
takes its threshold or dithering argument from the first byte after the
frame. -/
theorem C9_fixed_offset_args (info : CaptureInfo) (rest : List ℕ)
    (hf : info.fatal = false) (hd : info.diverged = false) (hr : 1 ≤ rest.length) :
    (handle_buffer { info with request_buffer := [0, 0, 0, 0] ++ rest }
       = handle_buffer { dispatch info (rest.getD 0 0) (rest.getD 1 0) with
           request_buffer := rest }) ∧
    (handle_buffer { info with request_buffer := [0, 0, 0, 1, 6] ++ rest }
       = handle_buffer { dispatch info 6 (rest.getD 0 0) with
           request_buffer := rest }) ∧
    (handle_buffer { info with request_buffer := [0, 0, 0, 1, 7] ++ rest }
       = handle_buffer { dispatch info 7 (rest.getD 0 0) with
           request_buffer := rest }) ∧
    (dispatch info 6 (rest.getD 0 0)).mono_threshold_r5
       = (rest.getD 0 0 % 256) >>> 3 ∧
    (dispatch info 7 (rest.getD 0 0)).dithering = rest.getD 0 0 % 256 := by
  refine ⟨?_, ?_, ?_, ?_, ?_⟩
  · obtain ⟨r0, rest2, rfl⟩ : ∃ a l, rest = a :: l := by
      cases rest with
      | nil => simp at hr
      | cons a l => exact ⟨a, l, rfl⟩
    have h := handle_buffer_cons_step info 0 r0 rest2 hf hd (by omega) (by omega)
    simpa using h
  · have h := handle_buffer_cons_step info 1 6 rest hf hd (by omega) (by omega)
    simpa using h
  · have h := handle_buffer_cons_step info 1 7 rest hf hd (by omega) (by omega)
    simpa using h
  · simp [dispatch, set_mono_threshold]
  · simp [dispatch, set_dithering]

theorem C9_fixed_offset_args_witness :
    (handle_buffer { sampleInfo with request_buffer := [0, 0, 0, 0] ++ [3, 9] }
       = handle_buffer { dispatch sampleInfo ([3, 9].getD 0 0) ([3, 9].getD 1 0) with
           request_buffer := [3, 9] }) ∧
    (handle_buffer { sampleInfo with request_buffer := [0, 0, 0, 1, 6] ++ [3, 9] }
       = handle_buffer { dispatch sampleInfo 6 ([3, 9].getD 0 0) with
           request_buffer := [3, 9] }) ∧
    (handle_buffer { sampleInfo with request_buffer := [0, 0, 0, 1, 7] ++ [3, 9] }
       = handle_buffer { dispatch sampleInfo 7 ([3, 9].getD 0 0) with
           request_buffer := [3, 9] }) ∧
    (dispatch sampleInfo 6 ([3, 9].getD 0 0)).mono_threshold_r5
       = ([3, 9].getD 0 0 % 256) >>> 3 ∧
    (dispatch sampleInfo 7 ([3, 9].getD 0 0)).dithering = [3, 9].getD 0 0 % 256 :=
  C9_fixed_offset_args sampleInfo [3, 9] rfl rfl (by decide)

lemma rows_singleton_getD (n : ℕ) (f : ℕ → ℕ) (a : ℕ) (ha : a < n) :
    (rows n (fun i => [f i])).getD a 0 = f a := by
  have h := rows_getD n (fun i => [f i]) 1 a 0 (fun i => rfl) ha (by omega)
  simpa using h

lemma rows_rows_singleton_length (n m : ℕ) (f : ℕ → ℕ → ℕ) :
    (rows n (fun x => rows m (fun y => [f x y]))).length = n * m :=
  rows_length n (fun x => rows m (fun y => [f x y])) m
    (fun x =>
      (rows_length m (fun y => [f x y]) 1 (fun y => rfl)).trans (Nat.mul_one _))

lemma rows_rows_singleton_getD (n m : ℕ) (f : ℕ → ℕ → ℕ) (a b : ℕ)
    (ha : a < n) (hb : b < m) :
    (rows n (fun x => rows m (fun y => [f x y]))).getD (a * m + b) 0 = f a b := by
  rw [rows_getD n (fun x => rows m (fun y => [f x y])) m a b
    (fun x =>
      (rows_length m (fun y => [f x y]) 1 (fun y => rfl)).trans (Nat.mul_one _))
    ha hb]
  exact rows_singleton_getD m (f a) b hb

lemma emit_mono_payload_length (info : CaptureInfo) :
    (emit_mono_payload info).length
      = info.capture_height * groups8 info.capture_width := by
  unfold emit_mono_payload
  split_ifs <;> exact rows_rows_singleton_length _ _ _

lemma emit_mono_rotate_flip_payload_length (info : CaptureInfo) :
    (emit_mono_rotate_flip_payload info).length
      = info.capture_width * groups8 info.capture_height := by
  unfold emit_mono_rotate_flip_payload
  split_ifs <;> exact rows_rows_singleton_length _ _ _

/-- C6: with width divisible by 8 and dithering off, emit_mono emits a
length prefix for width * height / 8 and a payload of exactly that many
bytes, in which bit i of byte y * (width / 8) + g is the to_1bpp decision of
pixel 8 * g + i of row y, read at flat index y * stride + (8 * g + i), so
rows are traversed in order and the stride padding past column width - 1 is
never read. -/
theorem C6_emit_mono_packing (info : CaptureInfo) (y g i : ℕ)
    (h8 : info.capture_width % 8 = 0)
    (hsw : info.capture_width ≤ info.capture_stride)
    (hdith : info.dithering = 0)
    (hy : y < info.capture_height)
    (hg : g < info.capture_width / 8) (hi : i < 8) :
    (emit_mono_payload info).length
        = info.capture_width * info.capture_height / 8 ∧
    emit_mono info
        = add_packet_length (info.capture_width * info.capture_height / 8)
            ++ emit_mono_payload info ∧
    ((emit_mono_payload info).getD (y * (info.capture_width / 8) + g) 0).testBit i
        = decide (to_1bpp info
            (read_pixel info (y * info.capture_stride + (8 * g + i))) = 1) := by
  obtain ⟨k, hk⟩ : ∃ k, info.capture_width = 8 * k := ⟨info.capture_width / 8, by omega⟩
  have hg8 : groups8 info.capture_width = k := by
    unfold groups8
    omega
  have hdiv : info.capture_width / 8 = k := by omega
  refine ⟨?_, rfl, ?_⟩
  · rw [emit_mono_payload_length, hg8, hk, Nat.mul_assoc,
      Nat.mul_div_cancel_left _ (by norm_num : (0:ℕ) < 8)]
    exact Nat.mul_comm _ _
  · have hifr : emit_mono_payload info
        = rows info.capture_height (fun y2 =>
            rows (groups8 info.capture_width) (fun g2 =>
              [mono8 (fun i2 => to_1bpp info (read_pixel info
                (y2 * (8 * groups8 info.capture_width
                    + (info.capture_stride - info.capture_width)) + 8 * g2 + i2)))])) := by
      unfold emit_mono_payload
      rw [if_pos (by simp [hdith, DITHERING_NONE])]
    rw [hifr, hdiv, hg8]
    rw [rows_rows_singleton_getD _ _ _ y g hy (by omega)]
    rw [mono8_testBit _ (fun j => to_1bpp_le_one _ _) i hi]
    have h1 : 8 * k + (info.capture_stride - info.capture_width)
        = info.capture_stride := by
      omega
    rw [h1, Nat.add_assoc]

theorem C6_emit_mono_packing_witness :
    (emit_mono_payload sampleInfo).length
        = sampleInfo.capture_width * sampleInfo.capture_height / 8 ∧
    emit_mono sampleInfo
        = add_packet_length (sampleInfo.capture_width * sampleInfo.capture_height / 8)
            ++ emit_mono_payload sampleInfo ∧
    ((emit_mono_payload sampleInfo).getD
        (2 * (sampleInfo.capture_width / 8) + 0) 0).testBit 3
        = decide (to_1bpp sampleInfo
            (read_pixel sampleInfo (2 * sampleInfo.capture_stride + (8 * 0 + 3))) = 1) :=
  C6_emit_mono_packing sampleInfo 2 0 3 (by decide) (by decide) (by decide)
    (by decide) (by decide) (by decide)

lemma dither_bit_le_one (c : Prop) [Decidable c] : (if c then (1:ℕ) else 0) ≤ 1 := by
  split <;> omega

/-- C2: with width and height divisible by 8, for every frame, threshold
configuration and either dithering mode, the row-major and the column-major
monochrome payloads have the same length width * height / 8, and the bit the
row-major encoder stores for pixel (x, y) - bit x % 8 of byte
y * (width / 8) + x / 8 - equals the bit the column-major encoder stores for
the same pixel - bit y % 8 of byte x * (height / 8) + y / 8; the two payloads
differ only in that placement, never in a decision value. -/
theorem C2_transpose_consistency (info : CaptureInfo) (x y : ℕ)
    (h8w : info.capture_width % 8 = 0) (h8h : info.capture_height % 8 = 0)
    (hsw : info.capture_width ≤ info.capture_stride)
    (hx : x < info.capture_width) (hy : y < info.capture_height) :
    (emit_mono_payload info).length
        = info.capture_width * info.capture_height / 8 ∧
    (emit_mono_rotate_flip_payload info).length
        = info.capture_width * info.capture_height / 8 ∧
    ((emit_mono_payload info).getD
        (y * (info.capture_width / 8) + x / 8) 0).testBit (x % 8)
      = ((emit_mono_rotate_flip_payload info).getD
        (x * (info.capture_height / 8) + y / 8) 0).testBit (y % 8) := by
  obtain ⟨k, hk⟩ : ∃ k, info.capture_width = 8 * k :=
    ⟨info.capture_width / 8, by omega⟩
  obtain ⟨m, hm⟩ : ∃ m, info.capture_height = 8 * m :=
    ⟨info.capture_height / 8, by omega⟩
  have hgk : groups8 info.capture_width = k := by
    unfold groups8
    omega
  have hgm : groups8 info.capture_height = m := by
    unfold groups8
    omega
  have hdw : info.capture_width / 8 = k := by omega
  have hdh : info.capture_height / 8 = m := by omega
  have hxd : x / 8 < k := by omega
  have hyd : y / 8 < m := by omega
  have hxm : x % 8 < 8 := by omega
  have hym : y % 8 < 8 := by omega
  refine ⟨?_, ?_, ?_⟩
  · rw [emit_mono_payload_length, hgk, hk, hm]
    have e : 8 * k * (8 * m) = 8 * (k * (8 * m)) := by ring
    rw [e, Nat.mul_div_cancel_left _ (by norm_num : (0:ℕ) < 8)]
    ring
  · rw [emit_mono_rotate_flip_payload_length, hgm, hk, hm]
    have e : 8 * k * (8 * m) = 8 * (k * (8 * m)) := by ring
    rw [e, Nat.mul_div_cancel_left _ (by norm_num : (0:ℕ) < 8)]
    ring
  · by_cases hd0 : info.dithering = DITHERING_NONE
    · have hifL : emit_mono_payload info
          = rows info.capture_height (fun y2 =>
              rows (groups8 info.capture_width) (fun g2 =>
                [mono8 (fun i2 => to_1bpp info (read_pixel info
                  (y2 * (8 * groups8 info.capture_width
                      + (info.capture_stride - info.capture_width))
                    + 8 * g2 + i2)))])) := by
        unfold emit_mono_payload
        rw [if_pos hd0]
      have hifR : emit_mono_rotate_flip_payload info
          = rows info.capture_width (fun x2 =>
              rows (groups8 info.capture_height) (fun gy2 =>
                [mono8 (fun k2 => to_1bpp info (read_pixel info
                  (x2 + (8 * gy2 + k2) * info.capture_stride)))])) := by
        unfold emit_mono_rotate_flip_payload
        rw [if_pos hd0]
      rw [hifL, hifR, hdw, hdh, hgk, hgm]
      rw [rows_rows_singleton_getD _ _ _ y (x / 8) hy hxd]
      rw [rows_rows_singleton_getD _ _ _ x (y / 8) hx hyd]
      rw [mono8_testBit _ (fun j => to_1bpp_le_one _ _) _ hxm]
      rw [mono8_testBit _ (fun j => to_1bpp_le_one _ _) _ hym]
      have h1 : 8 * k + (info.capture_stride - info.capture_width)
          = info.capture_stride := by omega
      rw [h1]
      have h2 : y * info.capture_stride + 8 * (x / 8) + x % 8
          = x + (8 * (y / 8) + y % 8) * info.capture_stride := by
        rw [Nat.add_assoc, Nat.div_add_mod, Nat.div_add_mod]
        ring
      rw [h2]
    · have hifL : emit_mono_payload info
          = rows info.capture_height (fun y2 =>
              rows (groups8 info.capture_width) (fun g2 =>
                [mono8 (fun i2 =>
                  if info.dithering_buffer
                      (y2 * (8 * groups8 info.capture_width) + 8 * g2 + i2) ≠ 0
                  then 1 else 0)])) := by
        unfold emit_mono_payload
        rw [if_neg hd0]
      have hifR : emit_mono_rotate_flip_payload info
          = rows info.capture_width (fun x2 =>
              rows (groups8 info.capture_height) (fun gy2 =>
                [mono8 (fun k2 =>
                  if info.dithering_buffer
                      (x2 + (8 * gy2 + k2) * info.capture_width) ≠ 0
                  then 1 else 0)])) := by
        unfold emit_mono_rotate_flip_payload
        rw [if_neg hd0]
      rw [hifL, hifR, hdw, hdh, hgk, hgm]
      rw [rows_rows_singleton_getD _ _ _ y (x / 8) hy hxd]
      rw [rows_rows_singleton_getD _ _ _ x (y / 8) hx hyd]
      rw [mono8_testBit _ (fun j => dither_bit_le_one _) _ hxm]
      rw [mono8_testBit _ (fun j => dither_bit_le_one _) _ hym]
      have h2 : y * (8 * k) + 8 * (x / 8) + x % 8
          = x + (8 * (y / 8) + y % 8) * info.capture_width := by
        rw [Nat.add_assoc, Nat.div_add_mod, Nat.div_add_mod, hk]
        ring
      rw [h2]

theorem C2_transpose_consistency_witness :
    (emit_mono_payload sampleInfo).length
        = sampleInfo.capture_width * sampleInfo.capture_height / 8 ∧
    (emit_mono_rotate_flip_payload sampleInfo).length
        = sampleInfo.capture_width * sampleInfo.capture_height / 8 ∧
    ((emit_mono_payload sampleInfo).getD
        (3 * (sampleInfo.capture_width / 8) + 5 / 8) 0).testBit (5 % 8)
      = ((emit_mono_rotate_flip_payload sampleInfo).getD
        (5 * (sampleInfo.capture_height / 8) + 3 / 8) 0).testBit (3 % 8) :=
  C2_transpose_consistency sampleInfo 5 3 (by decide) (by decide) (by decide)
    (by decide) (by decide)

lemma rows_rows3_length (n m : ℕ) (f0 f1 f2 : ℕ → ℕ → ℕ) :
    (rows n (fun x => rows m (fun y => [f0 x y, f1 x y, f2 x y]))).length
      = n * (m * 3) :=
  rows_length n (fun x => rows m (fun y => [f0 x y, f1 x y, f2 x y])) (m * 3)
    (fun x => rows_length m (fun y => [f0 x y, f1 x y, f2 x y]) 3 (fun y => rfl))

lemma rows_rows3_getD (n m : ℕ) (f0 f1 f2 : ℕ → ℕ → ℕ) (a b c : ℕ)
    (ha : a < n) (hb : b < m) (hc : c < 3) :
    (rows n (fun x => rows m (fun y => [f0 x y, f1 x y, f2 x y]))).getD
        (a * (m * 3) + (b * 3 + c)) 0
      = [f0 a b, f1 a b, f2 a b].getD c 0 := by
  rw [rows_getD n (fun x => rows m (fun y => [f0 x y, f1 x y, f2 x y])) (m * 3)
    a (b * 3 + c)
    (fun x => rows_length m (fun y => [f0 x y, f1 x y, f2 x y]) 3 (fun y => rfl))
    ha (by omega)]
  exact rows_getD m (fun y => [f0 a y, f1 a y, f2 a y]) 3 b c (fun y => rfl) hb hc

/-- C7: emit_rgb24 writes a length prefix for 3 * width * height and then,
row-major with stride padding skipped, 3 bytes per pixel: bits 11-15 shifted
left by 3, then bits 5-10 shifted left by 2, then bits 0-4 shifted left by 3.
The byte triple of pixel (x, y) sits at payload offset 3 * (y * width + x). -/
theorem C7_rgb24_encoding (info : CaptureInfo) (x y c : ℕ)
    (hx : x < info.capture_width) (hy : y < info.capture_height) (hc : c < 3) :
    (emit_rgb24 info).length
        = 4 + 3 * info.capture_width * info.capture_height ∧
    (emit_rgb24 info).take 4
        = add_packet_length (3 * info.capture_width * info.capture_height) ∧
    ((emit_rgb24 info).drop 4).length
        = 3 * info.capture_width * info.capture_height ∧
    ((emit_rgb24 info).drop 4).getD (3 * (y * info.capture_width + x) + c) 0
      = [(read_pixel info (y * info.capture_stride + x) >>> 11) <<< 3,
         ((read_pixel info (y * info.capture_stride + x) >>> 5) &&& 0x3f) <<< 2,
         (read_pixel info (y * info.capture_stride + x) &&& 0x1f) <<< 3].getD c 0 := by
  have hpay : emit_rgb24 info
      = add_packet_length (3 * info.capture_width * info.capture_height)
        ++ rows info.capture_height (fun y2 =>
             rows info.capture_width (fun x2 =>
               [(read_pixel info (y2 * info.capture_stride + x2) >>> 11) <<< 3,
                ((read_pixel info (y2 * info.capture_stride + x2) >>> 5) &&& 0x3f) <<< 2,
                (read_pixel info (y2 * info.capture_stride + x2) &&& 0x1f) <<< 3])) := by
    unfold emit_rgb24
    rfl
  have hpl : (rows info.capture_height (fun y2 =>
             rows info.capture_width (fun x2 =>
               [(read_pixel info (y2 * info.capture_stride + x2) >>> 11) <<< 3,
                ((read_pixel info (y2 * info.capture_stride + x2) >>> 5) &&& 0x3f) <<< 2,
                (read_pixel info (y2 * info.capture_stride + x2) &&& 0x1f) <<< 3]))).length
      = info.capture_height * (info.capture_width * 3) :=
    rows_rows3_length _ _ _ _ _
  refine ⟨?_, ?_, ?_, ?_⟩
  · rw [hpay, List.length_append, hpl]
    have h4 : (add_packet_length
        (3 * info.capture_width * info.capture_height)).length = 4 := rfl
    rw [h4]
    ring
  · rw [hpay]
    exact List.take_left' rfl
  · rw [hpay, List.drop_left'
      (show (add_packet_length
        (3 * info.capture_width * info.capture_height)).length = 4 from rfl), hpl]
    ring
  · rw [hpay, List.drop_left'
      (show (add_packet_length
        (3 * info.capture_width * info.capture_height)).length = 4 from rfl)]
    have hidx : 3 * (y * info.capture_width + x) + c
        = y * (info.capture_width * 3) + (x * 3 + c) := by ring
    rw [hidx]
    exact rows_rows3_getD _ _ _ _ _ y x c hy hx hc

theorem C7_rgb24_encoding_witness :
    (emit_rgb24 sampleInfo).length
        = 4 + 3 * sampleInfo.capture_width * sampleInfo.capture_height ∧
    (emit_rgb24 sampleInfo).take 4
        = add_packet_length (3 * sampleInfo.capture_width * sampleInfo.capture_height) ∧
    ((emit_rgb24 sampleInfo).drop 4).length
        = 3 * sampleInfo.capture_width * sampleInfo.capture_height ∧
    ((emit_rgb24 sampleInfo).drop 4).getD
        (3 * (6 * sampleInfo.capture_width + 1) + 2) 0
      = [(read_pixel sampleInfo (6 * sampleInfo.capture_stride + 1) >>> 11) <<< 3,
         ((read_pixel sampleInfo (6 * sampleInfo.capture_stride + 1) >>> 5) &&& 0x3f) <<< 2,
         (read_pixel sampleInfo (6 * sampleInfo.capture_stride + 1) &&& 0x1f) <<< 3].getD 2 0 :=
  C7_rgb24_encoding sampleInfo 1 6 2 (by decide) (by decide) (by decide)

/-- C8: the startup capability frame is a 4-byte big-endian length prefix
encoding 36 followed by a 36-byte payload: the 16-byte backend-name field and
then five 4-byte fields in order display_id, display_width, display_height,
capture_width, capture_height (the spec phrase four 4-byte fields enumerates
these five fields, and 16 + 4 * 5 = 36 matches the emitted length exactly). -/
theorem C8_capability_frame (info : CaptureInfo) :
    (emit_capture_info info).length = 40 ∧
    (emit_capture_info info).take 4 = [0, 0, 0, 36] ∧
    ((emit_capture_info info).drop 4).length = 36 ∧
    (emit_capture_info info).drop 4
      = backend_name_bytes info ++ le32 info.display_id ++ le32 info.display_width
        ++ le32 info.display_height ++ le32 info.capture_width
        ++ le32 info.capture_height ∧
    (backend_name_bytes info).length = 16 ∧
    (le32 info.display_id).length = 4 ∧
    (le32 info.display_width).length = 4 ∧
    (le32 info.display_height).length = 4 ∧
    (le32 info.capture_width).length = 4 ∧
    (le32 info.capture_height).length = 4 := by
  have hapl : add_packet_length 36 = [0, 0, 0, 36] := by decide
  have hbn : (backend_name_bytes info).length = 16 := by
    simp [backend_name_bytes]
  have hsplit : emit_capture_info info
      = [0, 0, 0, 36]
        ++ (backend_name_bytes info ++ (le32 info.display_id
          ++ (le32 info.display_width ++ (le32 info.display_height
            ++ (le32 info.capture_width ++ le32 info.capture_height))))) := by
    unfold emit_capture_info
    rw [hapl]
    simp [List.append_assoc]
  refine ⟨?_, ?_, ?_, ?_, hbn, rfl, rfl, rfl, rfl, rfl⟩
  · rw [hsplit]
    simp [le32, hbn]
  · rw [hsplit]
    rfl
  · rw [hsplit, List.drop_left' (show ([0, 0, 0, 36] : List ℕ).length = 4 from rfl)]
    simp [le32, hbn]
  · rw [hsplit, List.drop_left' (show ([0, 0, 0, 36] : List ℕ).length = 4 from rfl)]
    simp [List.append_assoc]

lemma append_apl_length (v : ℕ) (l : List ℕ) :
    (add_packet_length v ++ l).length = 4 + l.length := by
  simp [add_packet_length]
  omega

lemma rows_rows2_length (n m : ℕ) (f0 f1 : ℕ → ℕ → ℕ) :
    (rows n (fun x => rows m (fun y => [f0 x y, f1 x y]))).length = n * (m * 2) :=
  rows_length n (fun x => rows m (fun y => [f0 x y, f1 x y])) (m * 2)
    (fun x => rows_length m (fun y => [f0 x y, f1 x y]) 2 (fun y => rfl))

lemma emit_rgb24_length (info : CaptureInfo) :
    (emit_rgb24 info).length
      = 4 + info.capture_height * (info.capture_width * 3) := by
  simp only [emit_rgb24]
  rw [append_apl_length]
  congr 1
  exact rows_rows3_length _ _ _ _ _

lemma emit_rgb565_length (info : CaptureInfo) :
    (emit_rgb565 info).length
      = 4 + info.capture_height * (info.capture_width * 2) := by
  simp only [emit_rgb565]
  rw [append_apl_length]
  congr 1
  exact rows_rows2_length _ _ _ _

lemma emit_mono_length (info : CaptureInfo) :
    (emit_mono info).length
      = 4 + info.capture_height * groups8 info.capture_width := by
  unfold emit_mono
  rw [append_apl_length, emit_mono_payload_length]

lemma emit_mono_rotate_flip_length (info : CaptureInfo) :
    (emit_mono_rotate_flip info).length
      = 4 + info.capture_width * groups8 info.capture_height := by
  unfold emit_mono_rotate_flip
  rw [append_apl_length, emit_mono_rotate_flip_payload_length]

lemma emit_capture_info_length (info : CaptureInfo) :
    (emit_capture_info info).length = 40 := by
  unfold emit_capture_info
  simp [add_packet_length, backend_name_bytes, le32]

/-- A 2 x 2 capture session: its pixel count 4 satisfies the claimed
precondition, but its work buffer capacity 4 * 2 * 2 = 16 bytes is smaller
than the 40-byte capability frame. -/
def tinyInfo : CaptureInfo where
  capture_width := 2
  capture_height := 2
  capture_stride := 2
  buffer := fun _ => 0
  dithering_buffer := fun _ => 0
  backend_name := fun _ => 0
  display_id := 0
  display_width := 2
  display_height := 2
  mono_threshold_r5 := 3
  mono_threshold_g6 := 96
  mono_threshold_b5 := 6144
  dithering := 0
  send_snapshot := 0
  request_buffer := []
  log := []
  fatal := false
  diverged := false

/-- C10 counterexample: at capture dimensions 2 x 2 the precondition
width * height >= 4 of the claim holds, yet the capability-info emission path
writes 40 bytes, which exceeds both the claimed per-emission bound
4 + 3 * width * height = 16 and the allocated capacity
4 * width * height = 16 bytes, so the claim as stated is false. -/
theorem C10_work_buffer_counterexample :
    4 ≤ tinyInfo.capture_width * tinyInfo.capture_height ∧
    (emit_capture_info tinyInfo).length = 40 ∧
    4 + 3 * (tinyInfo.capture_width * tinyInfo.capture_height) = 16 ∧
    4 * (tinyInfo.capture_width * tinyInfo.capture_height) = 16 ∧
    ¬(emit_capture_info tinyInfo).length
        ≤ 4 + 3 * (tinyInfo.capture_width * tinyInfo.capture_height) ∧
    ¬(emit_capture_info tinyInfo).length
        ≤ 4 * (tinyInfo.capture_width * tinyInfo.capture_height) := by
  decide

/-- C10 amended: under the strengthened precondition
capture_width * capture_height >= 12 (instead of >= 4), every emission path -
capability info, RGB24, RGB565 and both monochrome encoders - writes at most
4 + 3 * width * height bytes through the work buffer, and that bound never
exceeds the allocated capacity of 4 * width * height bytes. -/
theorem C10_work_buffer_amended (info : CaptureInfo)
    (h12 : 12 ≤ info.capture_width * info.capture_height) :
    (emit_capture_info info).length
        ≤ 4 + 3 * (info.capture_width * info.capture_height) ∧
    (emit_rgb24 info).length
        ≤ 4 + 3 * (info.capture_width * info.capture_height) ∧
    (emit_rgb565 info).length
        ≤ 4 + 3 * (info.capture_width * info.capture_height) ∧
    (emit_mono info).length
        ≤ 4 + 3 * (info.capture_width * info.capture_height) ∧
    (emit_mono_rotate_flip info).length
        ≤ 4 + 3 * (info.capture_width * info.capture_height) ∧
    4 + 3 * (info.capture_width * info.capture_height)
        ≤ 4 * (info.capture_width * info.capture_height) := by
  have hw1 : 1 ≤ info.capture_width := by
    rcases Nat.eq_zero_or_pos info.capture_width with h0 | h0
    · rw [h0, Nat.zero_mul] at h12
      omega
    · exact h0
  have hh1 : 1 ≤ info.capture_height := by
    rcases Nat.eq_zero_or_pos info.capture_height with h0 | h0
    · rw [h0, Nat.mul_zero] at h12
      omega
    · exact h0
  have hgw : groups8 info.capture_width ≤ info.capture_width := by
    unfold groups8
    omega
  have hgh : groups8 info.capture_height ≤ info.capture_height := by
    unfold groups8
    omega
  refine ⟨?_, ?_, ?_, ?_, ?_, ?_⟩
  · rw [emit_capture_info_length]
    omega
  · rw [emit_rgb24_length]
    have e1 : info.capture_height * (info.capture_width * 3)
        = 3 * (info.capture_width * info.capture_height) := by ring
    omega
  · rw [emit_rgb565_length]
    have e1 : info.capture_height * (info.capture_width * 2)
        = 2 * (info.capture_width * info.capture_height) := by ring
    omega
  · rw [emit_mono_length]
    have e1 : info.capture_height * groups8 info.capture_width
        ≤ info.capture_height * info.capture_width :=
      Nat.mul_le_mul_left _ hgw
    have e2 : info.capture_height * info.capture_width
        = info.capture_width * info.capture_height := Nat.mul_comm _ _
    omega
  · rw [emit_mono_rotate_flip_length]
    have e1 : info.capture_width * groups8 info.capture_height
        ≤ info.capture_width * info.capture_height :=
      Nat.mul_le_mul_left _ hgh
    omega
  · omega

theorem C10_work_buffer_amended_witness :
    (emit_capture_info sampleInfo).length
        ≤ 4 + 3 * (sampleInfo.capture_width * sampleInfo.capture_height) ∧
    (emit_rgb24 sampleInfo).length
        ≤ 4 + 3 * (sampleInfo.capture_width * sampleInfo.capture_height) ∧
    (emit_rgb565 sampleInfo).length
        ≤ 4 + 3 * (sampleInfo.capture_width * sampleInfo.capture_height) ∧
    (emit_mono sampleInfo).length
        ≤ 4 + 3 * (sampleInfo.capture_width * sampleInfo.capture_height) ∧
    (emit_mono_rotate_flip sampleInfo).length
        ≤ 4 + 3 * (sampleInfo.capture_width * sampleInfo.capture_height) ∧
    4 + 3 * (sampleInfo.capture_width * sampleInfo.capture_height)
        ≤ 4 * (sampleInfo.capture_width * sampleInfo.capture_height) :=
  C10_work_buffer_amended sampleInfo (by decide)

lemma apply_frame_fatal (info : CaptureInfo) (f : CmdFrame) :
    (apply_frame info f).fatal = info.fatal :=
  dispatch_fatal _ _ _

lemma apply_frame_diverged (info : CaptureInfo) (f : CmdFrame) :
    (apply_frame info f).diverged = info.diverged :=
  dispatch_diverged _ _ _

lemma foldl_apply_frame_fatal (fs : List CmdFrame) :
    ∀ info : CaptureInfo, (List.foldl apply_frame info fs).fatal = info.fatal := by
  induction fs with
  | nil => intro info; rfl
  | cons f fs ih =>
    intro info
    rw [List.foldl_cons, ih, apply_frame_fatal]

lemma foldl_apply_frame_diverged (fs : List CmdFrame) :
    ∀ info : CaptureInfo, (List.foldl apply_frame info fs).diverged = info.diverged := by
  induction fs with
  | nil => intro info; rfl
  | cons f fs ih =>
    intro info
    rw [List.foldl_cons, ih, apply_frame_diverged]

lemma apply_frame_req_update (info : CaptureInfo) (l : List ℕ) (f : CmdFrame) :
    apply_frame { info with request_buffer := l } f
      = { apply_frame info f with request_buffer := l } :=
  dispatch_req_update _ _ _ _

lemma foldl_apply_frame_req_update (fs : List CmdFrame) :
    ∀ (info : CaptureInfo) (l : List ℕ),
      List.foldl apply_frame { info with request_buffer := l } fs
        = { List.foldl apply_frame info fs with request_buffer := l } := by
  induction fs with
  | nil => intro info l; rfl
  | cons f fs ih =>
    intro info l
    rw [List.foldl_cons, apply_frame_req_update, ih, List.foldl_cons]

lemma handle_buffer_frame (info : CaptureInfo) (f : CmdFrame) (rest : List ℕ)
    (hw : WFFrame f) (hf : info.fatal = false) (hd : info.diverged = false) :
    handle_buffer { info with request_buffer := frame_bytes f ++ rest }
      = handle_buffer { apply_frame info f with request_buffer := rest } := by
  obtain ⟨hlen, harg⟩ := hw
  have hfb : frame_bytes f ++ rest
      = 0 :: 0 :: 0 :: (f.args.length + 1) :: f.cmd :: (f.args ++ rest) := by
    simp [frame_bytes]
  rw [hfb]
  rw [handle_buffer_cons_step info (f.args.length + 1) f.cmd (f.args ++ rest) hf hd
    (by omega) (by simp)]
  have hdrop : (f.cmd :: (f.args ++ rest)).drop (f.args.length + 1) = rest := by
    rw [List.drop_succ_cons]
    exact List.drop_left _ _
  rw [hdrop]
  unfold apply_frame
  by_cases h67 : f.cmd = 6 ∨ f.cmd = 7
  · have hargs : 1 ≤ f.args.length := harg h67
    have harg0 : (f.args ++ rest).getD 0 0 = f.args.getD 0 0 :=
      List.getD_append _ _ _ _ (by omega)
    rw [harg0]
  · push_neg at h67
    rw [dispatch_arg_congr info f.cmd _ (f.args.getD 0 0) h67.1 h67.2]

lemma handle_buffer_run (fs : List CmdFrame) :
    ∀ (info : CaptureInfo) (rest : List ℕ),
      (∀ f ∈ fs, WFFrame f) → info.fatal = false → info.diverged = false →
      handle_buffer { info with request_buffer := frames_bytes fs ++ rest }
        = handle_buffer
            { List.foldl apply_frame info fs with request_buffer := rest } := by
  induction fs with
  | nil =>
    intro info rest hwf hf hd
    simp [frames_bytes]
  | cons f fs ih =>
    intro info rest hwf hf hd
    have hfb : frames_bytes (f :: fs) = frame_bytes f ++ frames_bytes fs := rfl
    rw [hfb, List.append_assoc]
    rw [handle_buffer_frame info f (frames_bytes fs ++ rest)
      (hwf f (by simp)) hf hd]
    rw [ih (apply_frame info f) rest (fun g hg => hwf g (by simp [hg]))
      (by rw [apply_frame_fatal]; exact hf)
      (by rw [apply_frame_diverged]; exact hd)]
    rw [List.foldl_cons]

lemma stalled_take_frame (f : CmdFrame) (n : ℕ) (hw : WFFrame f)
    (hn : n < (frame_bytes f).length) :
    stalled ((frame_bytes f).take n) := by
  by_cases h5 : n < 5
  · left
    rw [List.length_take]
    omega
  · right
    obtain ⟨hlen, -⟩ := hw
    have hfblen : (frame_bytes f).length = f.args.length + 5 := by
      simp [frame_bytes]
    obtain ⟨p, rfl⟩ : ∃ p, n = p + 5 := ⟨n - 5, by omega⟩
    have htake : (frame_bytes f).take (p + 5)
        = 0 :: 0 :: 0 :: (f.args.length + 1) :: f.cmd :: f.args.take p := by
      rw [show p + 5 = p + 1 + 1 + 1 + 1 + 1 from by ring]
      simp [frame_bytes, List.take_succ_cons]
    rw [htake]
    refine ⟨rfl, rfl, rfl, ?_⟩
    have hfl : frame_len
        (0 :: 0 :: 0 :: (f.args.length + 1) :: f.cmd :: f.args.take p)
        = f.args.length + 5 := by
      show (4 + (f.args.length + 1)) % 256 = f.args.length + 5
      omega
    rw [hfl]
    rw [hfblen] at hn
    simp [List.length_take]
    omega

lemma frames_split (fs : List CmdFrame) :
    ∀ (c1 c2 : List ℕ), (∀ f ∈ fs, WFFrame f) → c1 ++ c2 = frames_bytes fs →
      ∃ fs1 fs2 r, fs = fs1 ++ fs2 ∧ c1 = frames_bytes fs1 ++ r ∧ stalled r ∧
        r ++ c2 = frames_bytes fs2 := by
  induction fs with
  | nil =>
    intro c1 c2 hwf heq
    simp only [frames_bytes, List.foldr_nil] at heq
    rw [List.append_eq_nil] at heq
    refine ⟨[], [], [], rfl, ?_, ?_, ?_⟩
    · rw [heq.1]
      rfl
    · left
      simp
    · rw [heq.2]
      rfl
  | cons f fs ih =>
    intro c1 c2 hwf heq
    have hfb : frames_bytes (f :: fs) = frame_bytes f ++ frames_bytes fs := rfl
    rw [hfb] at heq
    by_cases hlen : c1.length < (frame_bytes f).length
    · refine ⟨[], f :: fs, c1, rfl, rfl, ?_, ?_⟩
      · have hpre : c1 = (frame_bytes f).take c1.length := by
          have h1 : c1 = (c1 ++ c2).take c1.length := (List.take_left c1 c2).symm
          rw [heq] at h1
          rw [List.take_append_of_le_length (by omega)] at h1
          exact h1
        rw [hpre]
        exact stalled_take_frame f c1.length (hwf f (by simp)) (by omega)
      · rw [hfb]
        exact heq
    · push_neg at hlen
      have hc1 : c1 = frame_bytes f ++ c1.drop (frame_bytes f).length := by
        have h1 : c1.take (frame_bytes f).length = frame_bytes f := by
          have h2 : (c1 ++ c2).take (frame_bytes f).length
              = c1.take (frame_bytes f).length :=
            List.take_append_of_le_length hlen
          rw [heq, List.take_left] at h2
          exact h2.symm
        conv_lhs => rw [← List.take_append_drop (frame_bytes f).length c1]
        rw [h1]
      have hrest : c1.drop (frame_bytes f).length ++ c2 = frames_bytes fs := by
        have h1 : (c1 ++ c2).drop (frame_bytes f).length
            = c1.drop (frame_bytes f).length ++ c2 :=
          List.drop_append_of_le_length hlen
        rw [heq, List.drop_left] at h1
        exact h1.symm
      obtain ⟨fs1, fs2, r, hfs, hc1eq, hst, hc2eq⟩ :=
        ih (c1.drop (frame_bytes f).length) c2 (fun g hg => hwf g (by simp [hg]))
          hrest
      refine ⟨f :: fs1, fs2, r, by rw [List.cons_append, ← hfs], ?_, hst, hc2eq⟩
      rw [show frames_bytes (f :: fs1) = frame_bytes f ++ frames_bytes fs1 from rfl,
        List.append_assoc, ← hc1eq]
      exact hc1

lemma handle_chunks (cs : List (List ℕ)) :
    ∀ (fs : List CmdFrame) (info : CaptureInfo),
      (∀ f ∈ fs, WFFrame f) → info.fatal = false → info.diverged = false →
      stalled info.request_buffer →
      info.request_buffer ++ chunks_flatten cs = frames_bytes fs →
      List.foldl handle_stdin info cs
        = { List.foldl apply_frame info fs with request_buffer := [] } := by
  induction cs with
  | nil =>
    intro fs info hwf hf hd hs hb
    simp only [chunks_flatten, List.foldr_nil, List.append_nil] at hb
    cases fs with
    | nil =>
      simp only [frames_bytes, List.foldr_nil] at hb
      simp only [List.foldl_nil]
      cases info
      simp_all
    | cons g gs =>
      exfalso
      obtain ⟨hglen, -⟩ := hwf g (by simp)
      have hfbg : frames_bytes (g :: gs) = frame_bytes g ++ frames_bytes gs := rfl
      rw [hfbg] at hb
      have hfblen : (frame_bytes g).length = g.args.length + 5 := by
        simp [frame_bytes]
      rcases hs with h5 | ⟨h0, h1, h2, h3⟩
      · rw [hb, List.length_append, hfblen] at h5
        omega
      · rw [hb] at h3
        have hfl : frame_len (frame_bytes g ++ frames_bytes gs)
            = g.args.length + 5 := by
          rw [show frame_bytes g ++ frames_bytes gs
              = 0 :: 0 :: 0 :: (g.args.length + 1) :: g.cmd
                  :: (g.args ++ frames_bytes gs)
              from by simp [frame_bytes]]
          show (4 + (g.args.length + 1)) % 256 = g.args.length + 5
          omega
        rw [hfl, List.length_append, hfblen] at h3
        omega
  | cons c cs ih =>
    intro fs info hwf hf hd hs hb
    rw [List.foldl_cons]
    have hflat : (info.request_buffer ++ c) ++ chunks_flatten cs
        = frames_bytes fs := by
      rw [List.append_assoc]
      exact hb
    obtain ⟨fs1, fs2, r, hfs, hc1eq, hst, hc2eq⟩ :=
      frames_split fs (info.request_buffer ++ c) (chunks_flatten cs) hwf hflat
    have hstep : handle_stdin info c
        = { List.foldl apply_frame info fs1 with request_buffer := r } := by
      unfold handle_stdin
      rw [hc1eq]
      rw [handle_buffer_run fs1 info r
        (fun g hg => hwf g (by rw [hfs]; exact List.mem_append_left _ hg)) hf hd]
      apply handle_buffer_stalled
      · simp [foldl_apply_frame_fatal, hf]
      · simp [foldl_apply_frame_diverged, hd]
      · simpa using hst
    rw [hstep]
    rw [ih fs2 { List.foldl apply_frame info fs1 with request_buffer := r }
      (fun g hg => hwf g (by rw [hfs]; exact List.mem_append_right _ hg))
      (by simp [foldl_apply_frame_fatal, hf])
      (by simp [foldl_apply_frame_diverged, hd])
      (by simpa using hst)
      (by simpa using hc2eq)]
    rw [foldl_apply_frame_req_update, hfs, List.foldl_append]

/-- C1: chunking invariance of the command parser.  For a byte stream that
is the concatenation of well-formed command frames, delivering it split into
any list of chunks across successive handle_stdin calls produces exactly the
state (including the ghost log of dispatched commands, so the same commands
in the same order, and the pending snapshot request, thresholds and dithering
mode) that one single delivery of the whole stream produces, and the inbound
buffer ends empty; when the stream additionally carries an incomplete
trailing frame, that partial frame is left left-aligned at the start of the
inbound buffer while the rest of the state equals the complete-stream
state. -/
theorem C1_chunking_invariance (info : CaptureInfo) (fs : List CmdFrame)
    (cs : List (List ℕ)) (f : CmdFrame) (n : ℕ)
    (hf : info.fatal = false) (hd : info.diverged = false)
    (hb : info.request_buffer = [])
    (hwf : ∀ g ∈ fs, WFFrame g)
    (hcs : chunks_flatten cs = frames_bytes fs)
    (hwff : WFFrame f) (hn : n < (frame_bytes f).length) :
    List.foldl handle_stdin info cs = handle_stdin info (frames_bytes fs) ∧
    (List.foldl handle_stdin info cs).request_buffer = [] ∧
    handle_stdin info (frames_bytes fs ++ (frame_bytes f).take n)
      = { handle_stdin info (frames_bytes fs) with
          request_buffer := (frame_bytes f).take n } := by
  have hchunks := handle_chunks cs fs info hwf hf hd
    (by rw [hb]; left; simp)
    (by rw [hb]; simpa using hcs)
  have hwhole := handle_chunks [frames_bytes fs] fs info hwf hf hd
    (by rw [hb]; left; simp)
    (by rw [hb]; simp [chunks_flatten])
  have hwhole2 : handle_stdin info (frames_bytes fs)
      = { List.foldl apply_frame info fs with request_buffer := [] } := by
    simpa using hwhole
  refine ⟨?_, ?_, ?_⟩
  · rw [hchunks, hwhole2]
  · rw [hchunks]
  · have hpart : handle_buffer { info with request_buffer :=
        [] ++ (frames_bytes fs ++ (frame_bytes f).take n) }
        = { List.foldl apply_frame info fs with
            request_buffer := (frame_bytes f).take n } := by
      rw [List.nil_append]
      rw [handle_buffer_run fs info ((frame_bytes f).take n) hwf hf hd]
      apply handle_buffer_stalled
      · simp [foldl_apply_frame_fatal, hf]
      · simp [foldl_apply_frame_diverged, hd]
      · simpa using stalled_take_frame f n hwff hn
    calc handle_stdin info (frames_bytes fs ++ (frame_bytes f).take n)
        = handle_buffer { info with request_buffer :=
            [] ++ (frames_bytes fs ++ (frame_bytes f).take n) } := by
          unfold handle_stdin
          rw [hb]
      _ = { List.foldl apply_frame info fs with
            request_buffer := (frame_bytes f).take n } := hpart
      _ = { handle_stdin info (frames_bytes fs) with
            request_buffer := (frame_bytes f).take n } := by
          rw [hwhole2]

/-- Frames used by the chunking witness: a snapshot request, a threshold
command and an unknown command. -/
def c1Frames : List CmdFrame :=
  [⟨4, []⟩, ⟨6, [200]⟩, ⟨9, [1, 2]⟩]

/-- An arbitrary 4-way split of the bytes of c1Frames, cutting through the
middle of frames. -/
def c1Chunks : List (List ℕ) :=
  [[0, 0, 0], [1, 4, 0, 0, 0, 2, 6], [200, 0, 0, 0, 3], [9, 1, 2]]

theorem C1_chunking_invariance_witness :
    List.foldl handle_stdin sampleInfo c1Chunks
        = handle_stdin sampleInfo (frames_bytes c1Frames) ∧
    (List.foldl handle_stdin sampleInfo c1Chunks).request_buffer = [] ∧
    handle_stdin sampleInfo
        (frames_bytes c1Frames ++ (frame_bytes ⟨6, [50]⟩).take 3)
      = { handle_stdin sampleInfo (frames_bytes c1Frames) with
          request_buffer := (frame_bytes ⟨6, [50]⟩).take 3 } :=
  C1_chunking_invariance sampleInfo c1Frames c1Chunks ⟨6, [50]⟩ 3
    rfl rfl rfl (by decide) (by decide) (by decide) (by decide)
